import Mathlib

/-!
Verification of the BFD configuration parser of keepalived
(src/keepalived/bfd/bfd_parser.c) against its natural-language
specification.

The parser is shallowly embedded: every keyword handler of
bfd_parser.c is translated into a pure Lean function on an explicit
`ParseState`, and the external block scanner (parser.c, which is not
part of the sources under verification) is modelled from the spec as a
fold over a list of blocks, where each block is the instance name of
its opening `bfd_instance` line together with the `(keyword, argument)`
lines of its body.

Numeric constants that live in headers outside the verified sources
(bfd.h, main.h) are modelled from the spec; the claims only depend on
the relative shape of those constants (for example that the v4 and v6
ttl defaults differ), never on their exact values.
-/

/-! ## Constants (headers bfd.h / main.h are not among the verified sources) -/

/-- Modelled from the spec: BFD_INAME_MAX from bfd.h (not in the verified
sources); instance names must be strictly shorter than this bound. -/
def BFD_INAME_MAX : Nat := 32

/-- Modelled from the spec: admissible minimum for `min_rx` (bfd.h). -/
def BFD_MINRX_MIN : Nat := 1

/-- Modelled from the spec: admissible maximum for `min_rx` (bfd.h). -/
def BFD_MINRX_MAX : Nat := 4294967

/-- Modelled from the spec: soft "sensible" ceiling for `min_rx` (bfd.h);
values above it warn but are still applied. -/
def BFD_MINRX_MAX_SENSIBLE : Nat := 1000

/-- Modelled from the spec: admissible minimum for `min_tx` (bfd.h). -/
def BFD_MINTX_MIN : Nat := 1

/-- Modelled from the spec: admissible maximum for `min_tx` (bfd.h). -/
def BFD_MINTX_MAX : Nat := 4294967

/-- Modelled from the spec: soft "sensible" ceiling for `min_tx` (bfd.h). -/
def BFD_MINTX_MAX_SENSIBLE : Nat := 1000

/-- Modelled from the spec: admissible minimum for `idle_tx` (bfd.h). -/
def BFD_IDLETX_MIN : Nat := 1

/-- Modelled from the spec: admissible maximum for `idle_tx` (bfd.h). -/
def BFD_IDLETX_MAX : Nat := 4294967

/-- Modelled from the spec: soft "sensible" ceiling for `idle_tx` (bfd.h). -/
def BFD_IDLETX_MAX_SENSIBLE : Nat := 10000

/-- Modelled from the spec: admissible minimum for `multiplier` (bfd.h). -/
def BFD_MULTIPLIER_MIN : Nat := 1

/-- Modelled from the spec: admissible maximum for `multiplier` (bfd.h). -/
def BFD_MULTIPLIER_MAX : Nat := 255

/-- Modelled from the spec: maximum ttl/hoplimit value (bfd.h). -/
def BFD_TTL_MAX : Nat := 255

/-- Modelled from the spec: the protocol default ttl used for a v4
neighbor when `ttl` was left unset (bfd.h). -/
def BFD_CONTROL_TTL : Nat := 255

/-- Modelled from the spec: the protocol default hoplimit used for a v6
neighbor when `ttl` was left unset (bfd.h). -/
def BFD_CONTROL_HOPLIMIT : Nat := 64

/-- Modelled from the spec: the bit index recording that the `vrrp`
role-selector keyword was seen (DAEMON_VRRP, main.h). -/
def DAEMON_VRRP : Nat := 1

/-- Modelled from the spec: the bit index recording that the `checker`
role-selector keyword was seen (DAEMON_CHECKERS, main.h). -/
def DAEMON_CHECKERS : Nat := 2

/-- The bitops.h helper __set_bit: set bit `b` of the mask `x`. -/
def __set_bit (b x : Nat) : Nat := x ||| (1 <<< b)

/-- The bitops.h helper __test_bit: test bit `b` of the mask `x`. -/
def __test_bit (b x : Nat) : Bool := x.testBit b

/-! ## Token parsing (strtoul / strtol / inet_stosockaddr) -/

/-- Value of a list of decimal digit characters. -/
def digitsVal (cs : List Char) : Nat :=
  cs.foldl (fun n c => n * 10 + (c.toNat - 48)) 0

/-- Whether every character is a decimal digit. -/
def isDigits (cs : List Char) : Bool :=
  cs.all (fun c => c.isDigit)

/-- strtoul with the handlers' `*endptr` check: the token must be a
nonempty all-digit string (a token with any trailing non-digit, or an
empty token, is a parse failure for every handler of bfd_parser.c). -/
def parseDecNat (s : String) : Option Nat :=
  if s.data ≠ [] ∧ isDigits s.data then some (digitsVal s.data) else none

/-- strtol with the handlers' `*endptr` check: an optional leading minus
sign followed by a nonempty all-digit string. -/
def parseDecInt (s : String) : Option Int :=
  match s.data with
  | '-' :: rest =>
      if rest ≠ [] ∧ isDigits rest then some (-(digitsVal rest : Int)) else none
  | _ => (parseDecNat s).map (fun n => (n : Int))

/-- An address family, v4 or v6. -/
inductive Family
  | v4
  | v6
deriving DecidableEq

/-- A parsed network address: its family plus an abstract host value. -/
structure Addr where
  family : Family
  host : Nat
deriving DecidableEq

/-- Modelled from the spec: inet_stosockaddr (utils.c, not in the
verified sources).  The handlers only use whether the literal parses
and, on success, the resulting address (its family and its value for
equality comparisons), so addresses are given a tiny concrete grammar:
`v4:<digits>` and `v6:<digits>` parse, everything else fails. -/
def inet_stosockaddr (tok : String) : Option Addr :=
  match tok.data with
  | 'v' :: '4' :: ':' :: rest =>
      if rest ≠ [] ∧ isDigits rest then some ⟨Family.v4, digitsVal rest⟩ else none
  | 'v' :: '6' :: ':' :: rest =>
      if rest ≠ [] ∧ isDigits rest then some ⟨Family.v6, digitsVal rest⟩ else none
  | _ => none

/-! ## Data model -/

/-- bfd_t (bfd.h): one BFD instance owned by the monitor role.
`nbr_addr`/`src_addr` are `none` while the corresponding
`ss_family == 0` (address never set). -/
structure bfd_t where
  iname : String
  nbr_addr : Option Addr
  src_addr : Option Addr
  local_min_rx_intv : Nat
  local_min_tx_intv : Nat
  local_idle_tx_intv : Nat
  local_detect_mult : Nat
  passive : Bool
  ttl : Nat
  max_hops : Int
  vrrp : Bool
  checker : Bool
deriving DecidableEq

/-- vrrp_tracked_bfd_t (vrrp_track.h): the redundancy role's tracked
reference to a BFD instance. -/
structure vrrp_tracked_bfd_t where
  bname : String
  weight : Int
  bfd_up : Bool
deriving DecidableEq

/-- checker_tracked_bfd_t (check_bfd.h): the checker role's tracked
reference to a BFD instance (name only). -/
structure checker_tracked_bfd_t where
  bname : String
deriving DecidableEq

/-- The mutable state touched by bfd_parser.c: the monitor role's
instance list (bfd_data->bfd), the redundancy role's tracked list
(vrrp_data->vrrp_track_bfds), the checker role's tracked list
(check_data->track_bfds), and the static accumulator
`specified_event_processes`.  Lists grow at the tail; the "current"
record of a role is the last element of its list. -/
structure ParseState where
  bfd : List bfd_t
  vrrp_track_bfds : List vrrp_tracked_bfd_t
  track_bfds : List checker_tracked_bfd_t
  specified_event_processes : Nat
deriving DecidableEq

/-- The state at process start: all lists empty, accumulator zero. -/
def initState : ParseState :=
  { bfd := [], vrrp_track_bfds := [], track_bfds := [],
    specified_event_processes := 0 }

/-- Modelled from the spec: a configuration reload rebuilds every
role's data lists from scratch, while the file-static accumulator
`specified_event_processes` persists in the process between loads. -/
def reloadState (st : ParseState) : ParseState :=
  { initState with
    specified_event_processes := st.specified_event_processes }

/-- Modelled from the spec: default interval for `min_rx` (bfd.h). -/
def BFD_MINRX_DEFAULT : Nat := 10

/-- Modelled from the spec: default interval for `min_tx` (bfd.h). -/
def BFD_MINTX_DEFAULT : Nat := 10

/-- Modelled from the spec: default interval for `idle_tx` (bfd.h). -/
def BFD_IDLETX_DEFAULT : Nat := 1000

/-- Modelled from the spec: default detect multiplier (bfd.h). -/
def BFD_MULTIPLIER_DEFAULT : Nat := 3

/-- Modelled from the spec: alloc_bfd (bfd_data.c, not in the verified
sources) creates the record carrying the given name with both
addresses unset, the intervals and multiplier at their defaults,
`passive` false, `ttl` 0 (unset), `max_hops` 0 and both role flags
false.  The claims never depend on the exact numeric defaults. -/
def alloc_bfd (name : String) : bfd_t :=
  { iname := name, nbr_addr := none, src_addr := none,
    local_min_rx_intv := BFD_MINRX_DEFAULT * 1000,
    local_min_tx_intv := BFD_MINTX_DEFAULT * 1000,
    local_idle_tx_intv := BFD_IDLETX_DEFAULT * 1000,
    local_detect_mult := BFD_MULTIPLIER_DEFAULT,
    passive := false, ttl := 0, max_hops := 0,
    vrrp := false, checker := false }

/-- Replace the last element of a list by its image under `f`
(the C pattern "mutate LIST_TAIL_DATA in place"). -/
def updateTail {α : Type} (f : α → α) (l : List α) : List α :=
  match l.getLast? with
  | none => l
  | some a => l.dropLast ++ [f a]

/-! ## Monitor-role handlers (bfd_parser.c) -/

/-- find_bfd_by_name (bfd_data.c, modelled from the spec: exact,
case-sensitive match over the monitor role's instance list). -/
def find_bfd_by_name (st : ParseState) (name : String) : Bool :=
  st.bfd.any (fun b => b.iname = name)

/-- find_bfd_by_addr (bfd_data.c, modelled from the spec: an instance
whose neighbor address equals the given one). -/
def find_bfd_by_addr (st : ParseState) (a : Addr) : Bool :=
  st.bfd.any (fun b => b.nbr_addr = some a)

/-- check_new_bfd: a new instance name is admissible when it is shorter
than BFD_INAME_MAX and not already used. -/
def check_new_bfd (st : ParseState) (name : String) : Bool :=
  if name.length ≥ BFD_INAME_MAX then false
  else if find_bfd_by_name st name then false
  else true

/-- bfd_handler: the monitor role's `bfd_instance` opening handler.
On an admissible name it appends the freshly allocated instance and
resets `specified_event_processes` to 0; otherwise it requests a block
skip and changes nothing.  The second component is the skip request. -/
def bfd_handler (st : ParseState) (name : String) : ParseState × Bool :=
  if check_new_bfd st name then
    ({ st with
       bfd := st.bfd ++ [alloc_bfd name],
       specified_event_processes := 0 }, false)
  else (st, true)

/-- bfd_nbrip_handler: a malformed neighbor address, or one equal to an
already recorded neighbor address, deletes the current instance and
requests a block skip; otherwise the address is stored.  `none` models
the `assert(bfd)` failing (no current instance). -/
def bfd_nbrip_handler (st : ParseState) (tok : String) :
    Option (ParseState × Bool) :=
  match st.bfd.getLast? with
  | none => none
  | some _ =>
    match inet_stosockaddr tok with
    | none => some ({ st with bfd := st.bfd.dropLast }, true)
    | some a =>
      if find_bfd_by_addr st a then
        some ({ st with bfd := st.bfd.dropLast }, true)
      else
        some ({ st with
                bfd := updateTail (fun b => { b with nbr_addr := some a }) st.bfd },
              false)

/-- bfd_srcip_handler: a malformed source address only logs and leaves
the field unchanged; a parsed one is stored. -/
def bfd_srcip_handler (st : ParseState) (tok : String) :
    Option (ParseState × Bool) :=
  match st.bfd.getLast? with
  | none => none
  | some _ =>
    match inet_stosockaddr tok with
    | none => some (st, false)
    | some a =>
      some ({ st with
              bfd := updateTail (fun b => { b with src_addr := some a }) st.bfd },
            false)

/-- bfd_minrx_handler: parse failure or a value outside
[BFD_MINRX_MIN, BFD_MINRX_MAX] leaves the field unchanged; otherwise
the interval is stored as value × 1000 microseconds.  (The
above-sensible warning does not affect the state.) -/
def bfd_minrx_handler (st : ParseState) (tok : String) :
    Option (ParseState × Bool) :=
  match st.bfd.getLast? with
  | none => none
  | some _ =>
    match parseDecNat tok with
    | none => some (st, false)
    | some v =>
      if v < BFD_MINRX_MIN ∨ v > BFD_MINRX_MAX then some (st, false)
      else
        some ({ st with
                bfd := updateTail
                  (fun b => { b with local_min_rx_intv := v * 1000 }) st.bfd },
              false)

/-- bfd_mintx_handler: as bfd_minrx_handler, for `min_tx`. -/
def bfd_mintx_handler (st : ParseState) (tok : String) :
    Option (ParseState × Bool) :=
  match st.bfd.getLast? with
  | none => none
  | some _ =>
    match parseDecNat tok with
    | none => some (st, false)
    | some v =>
      if v < BFD_MINTX_MIN ∨ v > BFD_MINTX_MAX then some (st, false)
      else
        some ({ st with
                bfd := updateTail
                  (fun b => { b with local_min_tx_intv := v * 1000 }) st.bfd },
              false)

/-- bfd_idletx_handler: as bfd_minrx_handler, for `idle_tx`. -/
def bfd_idletx_handler (st : ParseState) (tok : String) :
    Option (ParseState × Bool) :=
  match st.bfd.getLast? with
  | none => none
  | some _ =>
    match parseDecNat tok with
    | none => some (st, false)
    | some v =>
      if v < BFD_IDLETX_MIN ∨ v > BFD_IDLETX_MAX then some (st, false)
      else
        some ({ st with
                bfd := updateTail
                  (fun b => { b with local_idle_tx_intv := v * 1000 }) st.bfd },
              false)

/-- bfd_multiplier_handler: parse failure or a value outside
[BFD_MULTIPLIER_MIN, BFD_MULTIPLIER_MAX] leaves the field unchanged;
otherwise the multiplier is stored. -/
def bfd_multiplier_handler (st : ParseState) (tok : String) :
    Option (ParseState × Bool) :=
  match st.bfd.getLast? with
  | none => none
  | some _ =>
    match parseDecNat tok with
    | none => some (st, false)
    | some v =>
      if v < BFD_MULTIPLIER_MIN ∨ v > BFD_MULTIPLIER_MAX then some (st, false)
      else
        some ({ st with
                bfd := updateTail
                  (fun b => { b with local_detect_mult := v }) st.bfd },
              false)

/-- bfd_passive_handler: sets the flag. -/
def bfd_passive_handler (st : ParseState) : Option (ParseState × Bool) :=
  match st.bfd.getLast? with
  | none => none
  | some _ =>
    some ({ st with
            bfd := updateTail (fun b => { b with passive := true }) st.bfd },
          false)

/-- bfd_ttl_handler: parse failure, the value 0, or a value above
BFD_TTL_MAX is rejected with no change; a value in [1, BFD_TTL_MAX] is
stored. -/
def bfd_ttl_handler (st : ParseState) (tok : String) :
    Option (ParseState × Bool) :=
  match st.bfd.getLast? with
  | none => none
  | some _ =>
    match parseDecNat tok with
    | none => some (st, false)
    | some v =>
      if v = 0 ∨ v > BFD_TTL_MAX then some (st, false)
      else
        some ({ st with
                bfd := updateTail (fun b => { b with ttl := v }) st.bfd },
              false)

/-- bfd_maxhops_handler: parse failure or a value outside
[-1, BFD_TTL_MAX] is rejected with no change; otherwise stored. -/
def bfd_maxhops_handler (st : ParseState) (tok : String) :
    Option (ParseState × Bool) :=
  match st.bfd.getLast? with
  | none => none
  | some _ =>
    match parseDecInt tok with
    | none => some (st, false)
    | some v =>
      if v < -1 ∨ v > (BFD_TTL_MAX : Int) then some (st, false)
      else
        some ({ st with
                bfd := updateTail (fun b => { b with max_hops := v }) st.bfd },
              false)

/-- The branch condition of bfd_end_handler's two discarding checks:
no neighbor address ever set, or both addresses set with different
families. -/
def bfd_discard_cond (b : bfd_t) : Bool :=
  match b.nbr_addr with
  | none => true
  | some n =>
    match b.src_addr with
    | none => false
    | some s => decide (¬ s.family = n.family)

/-- bfd_end_handler: validates the current instance at block close.
A missing neighbor address or a family mismatch deletes the instance;
otherwise an unset ttl is resolved to the family default, max_hops is
clamped down to ttl, and the role flags are resolved from the
accumulator (no selector seen at all means every role). -/
def bfd_end_handler (st : ParseState) : Option ParseState :=
  match st.bfd.getLast? with
  | none => none
  | some bfd =>
    match bfd.nbr_addr with
    | none => some { st with bfd := st.bfd.dropLast }
    | some nbr =>
      if (match bfd.src_addr with
          | some src => decide (¬ src.family = nbr.family)
          | none => false) then
        some { st with bfd := st.bfd.dropLast }
      else
        let ttl1 : Nat :=
          if bfd.ttl = 0 then
            (if nbr.family = Family.v4 then BFD_CONTROL_TTL
             else BFD_CONTROL_HOPLIMIT)
          else bfd.ttl
        let mh1 : Int :=
          if bfd.max_hops > (ttl1 : Int) then (ttl1 : Int) else bfd.max_hops
        let fl_vrrp : Bool :=
          if st.specified_event_processes = 0
             ∨ __test_bit DAEMON_VRRP st.specified_event_processes then true
          else bfd.vrrp
        let fl_checker : Bool :=
          if st.specified_event_processes = 0
             ∨ __test_bit DAEMON_CHECKERS st.specified_event_processes then true
          else bfd.checker
        some { st with
               bfd := updateTail
                 (fun b =>
                   { b with
                     ttl := ttl1, max_hops := mh1,
                     vrrp := fl_vrrp, checker := fl_checker }) st.bfd }

/-! ## Redundancy-role and checker-role handlers -/

/-- bfd_vrrp_handler: the redundancy role's `bfd_instance` opening
handler.  A name already tracked requests a block skip; otherwise a
provisional reference (weight 0, bfd_up false) is appended.  Note: it
does not touch `specified_event_processes`. -/
def bfd_vrrp_handler (st : ParseState) (name : String) : ParseState × Bool :=
  if st.vrrp_track_bfds.any (fun t => t.bname = name) then (st, true)
  else
    ({ st with
       vrrp_track_bfds := st.vrrp_track_bfds
         ++ [{ bname := name, weight := 0, bfd_up := false }] },
     false)

/-- bfd_vrrp_weight_handler: parse failure or a value outside
[-253, 253] leaves the weight of the redundancy role's current tracked
reference unchanged; otherwise the weight is stored.  `none` models
the `assert(tbfd)` failing (empty tracked list). -/
def bfd_vrrp_weight_handler (st : ParseState) (tok : String) :
    Option (ParseState × Bool) :=
  match st.vrrp_track_bfds.getLast? with
  | none => none
  | some _ =>
    match parseDecInt tok with
    | none => some (st, false)
    | some v =>
      if v < -253 ∨ v > 253 then some (st, false)
      else
        some ({ st with
                vrrp_track_bfds :=
                  updateTail (fun t => { t with weight := v })
                    st.vrrp_track_bfds },
              false)

/-- bfd_event_vrrp_handler: records the `vrrp` selector keyword. -/
def bfd_event_vrrp_handler (st : ParseState) : ParseState :=
  { st with
    specified_event_processes :=
      __set_bit DAEMON_VRRP st.specified_event_processes }

/-- bfd_event_checker_handler: records the `checker` selector keyword. -/
def bfd_event_checker_handler (st : ParseState) : ParseState :=
  { st with
    specified_event_processes :=
      __set_bit DAEMON_CHECKERS st.specified_event_processes }

/-- bfd_vrrp_end_handler: if any selector bit is set but DAEMON_VRRP is
not, the tail of the redundancy role's tracked list is deleted. -/
def bfd_vrrp_end_handler (st : ParseState) : Option ParseState :=
  if st.specified_event_processes ≠ 0
     ∧ ¬ __test_bit DAEMON_VRRP st.specified_event_processes then
    match st.vrrp_track_bfds.getLast? with
    | none => none
    | some _ => some { st with vrrp_track_bfds := st.vrrp_track_bfds.dropLast }
  else some st

/-- bfd_checker_handler: the checker role's `bfd_instance` opening
handler; like bfd_vrrp_handler, on the checker role's list, and it
also does not touch `specified_event_processes`. -/
def bfd_checker_handler (st : ParseState) (name : String) :
    ParseState × Bool :=
  if st.track_bfds.any (fun t => t.bname = name) then (st, true)
  else
    ({ st with track_bfds := st.track_bfds ++ [{ bname := name }] }, false)

/-- bfd_checker_end_handler: if any selector bit is set but
DAEMON_CHECKERS is not, the tail of the checker role's tracked list is
deleted. -/
def bfd_checker_end_handler (st : ParseState) : Option ParseState :=
  if st.specified_event_processes ≠ 0
     ∧ ¬ __test_bit DAEMON_CHECKERS st.specified_event_processes then
    match st.track_bfds.getLast? with
    | none => none
    | some _ => some { st with track_bfds := st.track_bfds.dropLast }
  else some st

/-! ## Keyword table construction (init_bfd_keywords) -/

/-- A child-keyword handler as installed in the keyword table. -/
inductive HandlerTag
  | hSrcip
  | hNbrip
  | hMinrx
  | hMintx
  | hIdletx
  | hMultiplier
  | hPassive
  | hTtl
  | hMaxhops
  | hVrrpWeight
  | hEventVrrp
  | hEventChecker
  | hIgnore
deriving DecidableEq

/-- Which `bfd_instance` root handler is installed. -/
inductive RootTag
  | rBfd
  | rVrrp
  | rChecker
deriving DecidableEq

/-- Which end-of-block handler is installed. -/
inductive EndTag
  | eBfd
  | eVrrp
  | eChecker
deriving DecidableEq

/-- prog_type (main.h): the identity of the running process. -/
inductive ProgType
  | PROG_TYPE_BFD
  | PROG_TYPE_VRRP
  | PROG_TYPE_CHECKER
deriving DecidableEq

/-- The keyword table produced by init_bfd_keywords: the root handler
for `bfd_instance`, the sublevel end handler, and the child keywords
in installation order. -/
structure KeywordTable where
  root : RootTag
  sublevel_end : EndTag
  children : List (String × HandlerTag)
deriving DecidableEq

/-- install_keyword_conditional: install the live handler when wanted,
the no-op ignore_handler otherwise. -/
def install_keyword_conditional (kw : String) (h : HandlerTag)
    (want_handler : Bool) : String × HandlerTag :=
  (kw, if want_handler then h else HandlerTag.hIgnore)

/-- init_bfd_keywords, with both _WITH_VRRP_ and _WITH_LVS_ compiled
in: the monitor root/end handlers (and live instance child handlers)
go to the BFD process or to any inactive process; the redundancy and
checker processes get their cross-reference root/end handlers, the
`weight` child wired to bfd_vrrp_weight_handler, and every instance
child keyword wired to the no-op; `vrrp` and `checker` are always
live. -/
def init_bfd_keywords (prog_type : ProgType) (active : Bool) : KeywordTable :=
  let bfd_handlers : Bool :=
    decide (prog_type = ProgType.PROG_TYPE_BFD) || ! active
  let rt : RootTag :=
    if bfd_handlers then RootTag.rBfd
    else if prog_type = ProgType.PROG_TYPE_VRRP then RootTag.rVrrp
    else RootTag.rChecker
  let ed : EndTag :=
    if bfd_handlers then EndTag.eBfd
    else if prog_type = ProgType.PROG_TYPE_VRRP then EndTag.eVrrp
    else EndTag.eChecker
  { root := rt, sublevel_end := ed,
    children :=
      [ install_keyword_conditional "source_ip" HandlerTag.hSrcip bfd_handlers,
        install_keyword_conditional "neighbor_ip" HandlerTag.hNbrip bfd_handlers,
        install_keyword_conditional "min_rx" HandlerTag.hMinrx bfd_handlers,
        install_keyword_conditional "min_tx" HandlerTag.hMintx bfd_handlers,
        install_keyword_conditional "idle_tx" HandlerTag.hIdletx bfd_handlers,
        install_keyword_conditional "multiplier" HandlerTag.hMultiplier bfd_handlers,
        install_keyword_conditional "passive" HandlerTag.hPassive bfd_handlers,
        install_keyword_conditional "ttl" HandlerTag.hTtl bfd_handlers,
        install_keyword_conditional "hoplimit" HandlerTag.hTtl bfd_handlers,
        install_keyword_conditional "max_hops" HandlerTag.hMaxhops bfd_handlers,
        install_keyword_conditional "weight" HandlerTag.hVrrpWeight (! bfd_handlers),
        ("vrrp", HandlerTag.hEventVrrp),
        ("checker", HandlerTag.hEventChecker) ] }

/-- The monitor role's keyword table. -/
def bfdTbl : KeywordTable := init_bfd_keywords ProgType.PROG_TYPE_BFD true

/-- The redundancy role's keyword table. -/
def vrrpTbl : KeywordTable := init_bfd_keywords ProgType.PROG_TYPE_VRRP true

/-- The checker role's keyword table. -/
def checkerTbl : KeywordTable := init_bfd_keywords ProgType.PROG_TYPE_CHECKER true

/-! ## The block scanner (modelled from the spec) -/

/-- One `bfd_instance` block of configuration text, already lexed: the
instance name of the opening line and the `(keyword, argument)` lines
of the body. -/
structure Block where
  name : String
  lines : List (String × String)
deriving DecidableEq

/-- Dispatch an installed child handler. -/
def runHandler (tag : HandlerTag) (st : ParseState) (arg : String) :
    Option (ParseState × Bool) :=
  match tag with
  | HandlerTag.hSrcip => bfd_srcip_handler st arg
  | HandlerTag.hNbrip => bfd_nbrip_handler st arg
  | HandlerTag.hMinrx => bfd_minrx_handler st arg
  | HandlerTag.hMintx => bfd_mintx_handler st arg
  | HandlerTag.hIdletx => bfd_idletx_handler st arg
  | HandlerTag.hMultiplier => bfd_multiplier_handler st arg
  | HandlerTag.hPassive => bfd_passive_handler st
  | HandlerTag.hTtl => bfd_ttl_handler st arg
  | HandlerTag.hMaxhops => bfd_maxhops_handler st arg
  | HandlerTag.hVrrpWeight => bfd_vrrp_weight_handler st arg
  | HandlerTag.hEventVrrp => some (bfd_event_vrrp_handler st, false)
  | HandlerTag.hEventChecker => some (bfd_event_checker_handler st, false)
  | HandlerTag.hIgnore => some (st, false)

/-- Dispatch the installed root handler. -/
def runRoot (tag : RootTag) (st : ParseState) (name : String) :
    ParseState × Bool :=
  match tag with
  | RootTag.rBfd => bfd_handler st name
  | RootTag.rVrrp => bfd_vrrp_handler st name
  | RootTag.rChecker => bfd_checker_handler st name

/-- Dispatch the installed end-of-block handler. -/
def runEnd (tag : EndTag) (st : ParseState) : Option ParseState :=
  match tag with
  | EndTag.eBfd => bfd_end_handler st
  | EndTag.eVrrp => bfd_vrrp_end_handler st
  | EndTag.eChecker => bfd_checker_end_handler st

/-- Modelled from the spec: the BlockScanner's processing of a block
body (parser.c, not in the verified sources).  Lines are processed in
order; a line whose keyword is not in the table is ignored; a handler
requesting a skip aborts the body (the remaining lines are not
processed) and the skip is reported to the caller; an assertion
failure (`none`) aborts everything. -/
def runLines (tbl : KeywordTable) :
    List (String × String) → ParseState → Option (ParseState × Bool)
  | [], st => some (st, false)
  | (kw, arg) :: rest, st =>
    match List.lookup kw tbl.children with
    | none => runLines tbl rest st
    | some tag =>
      match runHandler tag st arg with
      | none => none
      | some (st1, true) => some (st1, true)
      | some (st1, false) => runLines tbl rest st1

/-- Modelled from the spec: the BlockScanner's processing of one
`bfd_instance` block (parser.c, not in the verified sources).  The
root handler runs first; if it requests a skip the whole body is
skipped and the scanner resumes at the next sibling block.  Otherwise
the body lines run; if one of them requested a skip the remaining
lines are dropped and the scanner resumes at the next sibling block;
only a block that was not aborted reaches the end-of-block handler. -/
def runBlock (tbl : KeywordTable) (st : ParseState) (blk : Block) :
    Option ParseState :=
  match runRoot tbl.root st blk.name with
  | (st1, true) => some st1
  | (st1, false) =>
    match runLines tbl blk.lines st1 with
    | none => none
    | some (st2, true) => some st2
    | some (st2, false) => runEnd tbl.sublevel_end st2

/-- Modelled from the spec: a whole configuration load is the blocks in
order. -/
def runConfig (tbl : KeywordTable) : List Block → ParseState → Option ParseState
  | [], st => some st
  | b :: rest, st =>
    match runBlock tbl st b with
    | none => none
    | some st1 => runConfig tbl rest st1

/-- One configuration load as seen by the given process role (the
keyword table for that role, active). -/
def runLoad (pt : ProgType) (cfg : List Block) (st : ParseState) :
    Option ParseState :=
  runConfig (init_bfd_keywords pt true) cfg st

/-! ## Claim-side syntactic functions (following the spec's words) -/

/-- Following the spec's words: whether a block's body uses a given
keyword. -/
def blockUsesKw (kw : String) (b : Block) : Bool :=
  b.lines.any (fun l => l.1 = kw)

/-- Following the spec's words: whether any block of the load uses a
role-selector keyword (`vrrp` or `checker`). -/
def loadUsesSelector (cfg : List Block) : Bool :=
  cfg.any (fun b => blockUsesKw "vrrp" b || blockUsesKw "checker" b)

/-- The selector bits contributed by one line. -/
def selStep (a : Nat) (l : String × String) : Nat :=
  if l.1 = "vrrp" then __set_bit DAEMON_VRRP a
  else if l.1 = "checker" then __set_bit DAEMON_CHECKERS a
  else a

/-- The accumulator value after the given lines, starting from `s`:
each `vrrp` line sets DAEMON_VRRP, each `checker` line sets
DAEMON_CHECKERS, nothing is ever cleared. -/
def accumBits : Nat → List (String × String) → Nat
  | s, [] => s
  | s, l :: rest => accumBits (selStep s l) rest

/-! ## General helper lemmas -/

theorem updateTail_concat {α : Type} (f : α → α) (L : List α) (b : α) :
    updateTail f (L ++ [b]) = L ++ [f b] := by
  simp [updateTail, List.getLast?_concat, List.dropLast_concat]

theorem lookup_mem_of_eq_some {α β : Type} [BEq α] [LawfulBEq α]
    (a : α) (b : β) (l : List (α × β)) (h : List.lookup a l = some b) :
    (a, b) ∈ l := by
  induction l with
  | nil => simp [List.lookup] at h
  | cons p rest ih =>
    obtain ⟨k, v⟩ := p
    cases hk : a == k <;> simp [List.lookup, hk] at h
    · exact List.mem_cons_of_mem _ (ih h)
    · subst h
      have hak : a = k := by simpa using hk
      subst hak
      exact List.mem_cons_self _ _

theorem getLast?_of_concat {α : Type} {l L : List α} {b : α}
    (h : l = L ++ [b]) : l.getLast? = some b := by
  rw [h]
  exact List.getLast?_concat L

/-- On a rejected opening (overlong or duplicate name), the monitor
role's block processing returns the state unchanged. -/
theorem runBlock_bfd_reject (st : ParseState) (blk : Block)
    (h : check_new_bfd st blk.name = false) :
    runBlock bfdTbl st blk = some st := by
  unfold runBlock
  rw [show bfdTbl.root = RootTag.rBfd from rfl]
  simp [runRoot, bfd_handler, h]

/-! ## Claim C4 -/

/-- Claim C4: in the monitor role, a `bfd_instance` opening whose name
has length at least BFD_INAME_MAX, or whose name equals an
already-configured instance's name, creates no Instance, skips the
whole body of the block, and leaves every previously committed
instance (indeed the whole parse state) unchanged; in particular in
the duplicate case the first declaration remains. -/
theorem C4_reject_open (st : ParseState) (blk : Block)
    (h : BFD_INAME_MAX ≤ blk.name.length ∨ find_bfd_by_name st blk.name = true) :
    runBlock bfdTbl st blk = some st := by
  apply runBlock_bfd_reject
  unfold check_new_bfd
  split_ifs with h1 h2
  · rfl
  · rfl
  · exfalso
    rcases h with h3 | h3
    · exact h1 h3
    · exact h2 h3

/-- A state holding one committed instance named x with neighbor v4:7. -/
def stC4 : ParseState :=
  { bfd := [{ alloc_bfd "x" with nbr_addr := some ⟨Family.v4, 7⟩ }],
    vrrp_track_bfds := [], track_bfds := [], specified_event_processes := 0 }

theorem C4_reject_open_witness :
    find_bfd_by_name stC4 "x" = true
    ∧ runBlock bfdTbl stC4 ⟨"x", [("min_rx", "5"), ("neighbor_ip", "v6:9")]⟩ = some stC4 :=
  ⟨by decide,
   C4_reject_open stC4 ⟨"x", [("min_rx", "5"), ("neighbor_ip", "v6:9")]⟩ (Or.inr (by decide))⟩

/-! ## Claim C6 -/

/-- Claim C6: at the close of a monitor-role block the current Instance
is discarded exactly when bfd_discard_cond holds of it: the neighbor
address was never set, or both addresses are set with different
families.  Otherwise the instance stays (with the same name, its
ttl/max_hops/role flags resolved). -/
theorem C6_end_discard_iff (st : ParseState) (L : List bfd_t) (b : bfd_t)
    (h : st.bfd = L ++ [b]) :
    (bfd_discard_cond b = true → bfd_end_handler st = some { st with bfd := L })
    ∧ (bfd_discard_cond b = false →
        ∃ b', bfd_end_handler st = some { st with bfd := L ++ [b'] }
          ∧ b'.iname = b.iname) := by
  have hlast : st.bfd.getLast? = some b := getLast?_of_concat h
  have hdrop : st.bfd.dropLast = L := by rw [h]; exact List.dropLast_concat
  have hupd : ∀ f : bfd_t → bfd_t, updateTail f st.bfd = L ++ [f b] := by
    intro f; rw [h]; exact updateTail_concat f L b
  unfold bfd_end_handler bfd_discard_cond
  rw [hlast]
  obtain ⟨nm, nbrA, srcA, i1, i2, i3, i4, p1, t1, m1, v1, c1⟩ := b
  cases nbrA with
  | none =>
    dsimp only
    exact ⟨fun _ => by rw [hdrop], fun hd => by simp at hd⟩
  | some nbr =>
    cases srcA with
    | none =>
      dsimp only
      refine ⟨?_, ?_⟩
      · intro hd; simp at hd
      · intro _
        refine ⟨?w1, ?he1, ?hn1⟩
        case he1 =>
          rw [if_neg (by simp)]
          exact congrArg (fun l => some { st with bfd := l }) (hupd _)
        case hn1 => rfl
    | some src =>
      dsimp only
      by_cases hfam : src.family = nbr.family
      · refine ⟨?_, ?_⟩
        · intro hd; simp [hfam] at hd
        · intro _
          refine ⟨?w2, ?he2, ?hn2⟩
          case he2 =>
            rw [if_neg (by simp [hfam])]
            exact congrArg (fun l => some { st with bfd := l }) (hupd _)
          case hn2 => rfl
      · refine ⟨?_, ?_⟩
        · intro _
          rw [if_pos (by simp [hfam]), hdrop]
        · intro hd; simp [hfam] at hd

/-- A concrete instance with a v4 neighbor and no source address. -/
def bC6 : bfd_t := { alloc_bfd "n" with nbr_addr := some ⟨Family.v4, 1⟩ }

/-- A state whose only instance is bC6. -/
def stC6 : ParseState :=
  { bfd := [bC6], vrrp_track_bfds := [], track_bfds := [],
    specified_event_processes := 0 }

theorem C6_end_discard_iff_witness :
    bfd_discard_cond bC6 = false
    ∧ (∃ b', bfd_end_handler stC6 = some { stC6 with bfd := [] ++ [b'] }
        ∧ b'.iname = bC6.iname) :=
  ⟨by decide, (C6_end_discard_iff stC6 [] bC6 rfl).2 (by decide)⟩

/-! ## Claim C7 -/

/-- Claim C7: every Instance committed at block close satisfies
maxHops ≤ ttl: an unset (zero) ttl is first resolved to the protocol
default of the neighbor address's family (BFD_CONTROL_TTL for v4,
BFD_CONTROL_HOPLIMIT for v6), and maxHops is then clamped down to the
resolved ttl whenever it exceeds it. -/
theorem C7_committed_ttl_maxhops (st : ParseState) (L : List bfd_t)
    (b : bfd_t) (nbr : Addr) (h : st.bfd = L ++ [b])
    (hn : b.nbr_addr = some nbr) (hk : bfd_discard_cond b = false) :
    ∃ b', bfd_end_handler st = some { st with bfd := L ++ [b'] }
      ∧ b'.ttl = (if b.ttl = 0 then
          (if nbr.family = Family.v4 then BFD_CONTROL_TTL
           else BFD_CONTROL_HOPLIMIT)
         else b.ttl)
      ∧ b'.max_hops = min b.max_hops (b'.ttl : Int)
      ∧ b'.max_hops ≤ (b'.ttl : Int) := by
  have hlast : st.bfd.getLast? = some b := getLast?_of_concat h
  have hupd : ∀ f : bfd_t → bfd_t, updateTail f st.bfd = L ++ [f b] := by
    intro f; rw [h]; exact updateTail_concat f L b
  unfold bfd_end_handler
  rw [hlast]
  obtain ⟨nm, nbrA, srcA, i1, i2, i3, i4, p1, t1, m1, v1, c1⟩ := b
  unfold bfd_discard_cond at hk
  simp only at hn hk
  subst hn
  cases srcA with
  | none =>
    refine ⟨?w3, ?he3, ?ht3, ?hm3, ?hb3⟩
    case he3 =>
      dsimp only
      rw [if_neg (by simp)]
      exact congrArg (fun l => some { st with bfd := l }) (hupd _)
    case ht3 => rfl
    case hm3 => dsimp only; split <;> omega
    case hb3 => dsimp only; split <;> omega
  | some src =>
    have hfam : src.family = nbr.family := by
      by_contra hne
      simp [hne] at hk
    refine ⟨?w4, ?he4, ?ht4, ?hm4, ?hb4⟩
    case he4 =>
      dsimp only
      rw [if_neg (by simp [hfam])]
      exact congrArg (fun l => some { st with bfd := l }) (hupd _)
    case ht4 => rfl
    case hm4 => dsimp only; split <;> omega
    case hb4 => dsimp only; split <;> omega

/-- A concrete instance with a v6 neighbor, unset ttl and max_hops 200. -/
def bC7 : bfd_t :=
  { alloc_bfd "m" with nbr_addr := some ⟨Family.v6, 3⟩, max_hops := 200 }

/-- A state whose only instance is bC7. -/
def stC7 : ParseState :=
  { bfd := [bC7], vrrp_track_bfds := [], track_bfds := [],
    specified_event_processes := 0 }

theorem C7_committed_ttl_maxhops_witness :
    bfd_discard_cond bC7 = false
    ∧ (∃ b', bfd_end_handler stC7 = some { stC7 with bfd := [] ++ [b'] }
        ∧ b'.ttl = (if bC7.ttl = 0 then
            (if (⟨Family.v6, 3⟩ : Addr).family = Family.v4 then BFD_CONTROL_TTL
             else BFD_CONTROL_HOPLIMIT)
           else bC7.ttl)
        ∧ b'.max_hops = min bC7.max_hops (b'.ttl : Int)
        ∧ b'.max_hops ≤ (b'.ttl : Int)) :=
  ⟨by decide,
   C7_committed_ttl_maxhops stC7 [] bC7 ⟨Family.v6, 3⟩ rfl rfl (by decide)⟩

/-! ## Claim C8 -/

/-- A state whose only instance has ttl already set to 5. -/
def stC8 : ParseState :=
  { bfd := [{ alloc_bfd "x" with ttl := 5 }], vrrp_track_bfds := [],
    track_bfds := [], specified_event_processes := 0 }

/-- Claim C8 counterexample: the ttl handler does not accept the
argument 0 as "unset": on the token 0 it rejects and leaves the field
at its prior value 5 instead of resetting it to the unset value 0. -/
theorem C8_counterexample :
    bfd_ttl_handler stC8 "0" = some (stC8, false)
    ∧ stC8.bfd.map bfd_t.ttl = [5] := by decide

/-- Claim C8 (amended): the ttl/hoplimit handler rejects the value 0
just like any malformed or out-of-[1, BFD_TTL_MAX] argument, with no
change to the ttl field (the value 0 denotes "unset" only as the
field's resting state); every argument in [1, BFD_TTL_MAX] is applied
to the field. -/
theorem C8_ttl_reject_zero (st : ParseState) (L : List bfd_t) (b : bfd_t)
    (tok : String) (h : st.bfd = L ++ [b]) :
    (parseDecNat tok = none → bfd_ttl_handler st tok = some (st, false))
    ∧ (∀ v, parseDecNat tok = some v → v = 0 ∨ BFD_TTL_MAX < v →
        bfd_ttl_handler st tok = some (st, false))
    ∧ (∀ v, parseDecNat tok = some v → 1 ≤ v → v ≤ BFD_TTL_MAX →
        bfd_ttl_handler st tok =
          some ({ st with bfd := L ++ [{ b with ttl := v }] }, false)) := by
  have hlast : st.bfd.getLast? = some b := getLast?_of_concat h
  have hupd : ∀ f : bfd_t → bfd_t, updateTail f st.bfd = L ++ [f b] := by
    intro f; rw [h]; exact updateTail_concat f L b
  unfold bfd_ttl_handler
  rw [hlast]
  refine ⟨?_, ?_, ?_⟩
  · intro hp; rw [hp]
  · intro v hp hv
    rw [hp]
    dsimp only
    rw [if_pos (by omega)]
  · intro v hp h1 h2
    rw [hp]
    dsimp only
    rw [if_neg (by omega)]
    exact congrArg (fun l => some ({ st with bfd := l }, false)) (hupd _)

theorem C8_ttl_reject_zero_witness :
    parseDecNat "7" = some 7 ∧ (1 : Nat) ≤ 7 ∧ (7 : Nat) ≤ BFD_TTL_MAX
    ∧ bfd_ttl_handler stC8 "7" =
        some ({ stC8 with
                bfd := [] ++ [{ { alloc_bfd "x" with ttl := 5 } with ttl := 7 }] },
              false) :=
  ⟨by decide, by decide, by decide,
   (C8_ttl_reject_zero stC8 [] { alloc_bfd "x" with ttl := 5 } "7" rfl).2.2
     7 (by decide) (by decide) (by decide)⟩

/-! ## Claim C9 -/

/-- Claim C9: for min_rx, min_tx and idle_tx, an argument parsing as a
base-10 integer v inside the field's admissible range stores exactly
v × 1000 microseconds (the above-sensible warning never blocks the
store, so this includes every v above the sensible maximum and up to
the admissible maximum), while a malformed or out-of-range argument
leaves the field at its prior value. -/
theorem C9_interval_handlers (st : ParseState) (L : List bfd_t) (b : bfd_t)
    (tok : String) (h : st.bfd = L ++ [b]) :
    (∀ v, parseDecNat tok = some v → BFD_MINRX_MIN ≤ v → v ≤ BFD_MINRX_MAX →
      bfd_minrx_handler st tok =
        some ({ st with bfd := L ++ [{ b with local_min_rx_intv := v * 1000 }] },
              false))
    ∧ (parseDecNat tok = none
        ∨ (∃ v, parseDecNat tok = some v ∧ (v < BFD_MINRX_MIN ∨ BFD_MINRX_MAX < v)) →
        bfd_minrx_handler st tok = some (st, false))
    ∧ (∀ v, parseDecNat tok = some v → BFD_MINTX_MIN ≤ v → v ≤ BFD_MINTX_MAX →
      bfd_mintx_handler st tok =
        some ({ st with bfd := L ++ [{ b with local_min_tx_intv := v * 1000 }] },
              false))
    ∧ (parseDecNat tok = none
        ∨ (∃ v, parseDecNat tok = some v ∧ (v < BFD_MINTX_MIN ∨ BFD_MINTX_MAX < v)) →
        bfd_mintx_handler st tok = some (st, false))
    ∧ (∀ v, parseDecNat tok = some v → BFD_IDLETX_MIN ≤ v → v ≤ BFD_IDLETX_MAX →
      bfd_idletx_handler st tok =
        some ({ st with bfd := L ++ [{ b with local_idle_tx_intv := v * 1000 }] },
              false))
    ∧ (parseDecNat tok = none
        ∨ (∃ v, parseDecNat tok = some v ∧ (v < BFD_IDLETX_MIN ∨ BFD_IDLETX_MAX < v)) →
        bfd_idletx_handler st tok = some (st, false)) := by
  have hlast : st.bfd.getLast? = some b := getLast?_of_concat h
  have hupd : ∀ f : bfd_t → bfd_t, updateTail f st.bfd = L ++ [f b] := by
    intro f; rw [h]; exact updateTail_concat f L b
  refine ⟨?_, ?_, ?_, ?_, ?_, ?_⟩
  · intro v hp h1 h2
    unfold bfd_minrx_handler
    rw [hlast, hp]
    dsimp only
    rw [if_neg (by omega)]
    exact congrArg (fun l => some ({ st with bfd := l }, false)) (hupd _)
  · intro hbad
    unfold bfd_minrx_handler
    rw [hlast]
    rcases hbad with hp | ⟨v, hp, hv⟩
    · rw [hp]
    · rw [hp]
      dsimp only
      rw [if_pos (by omega)]
  · intro v hp h1 h2
    unfold bfd_mintx_handler
    rw [hlast, hp]
    dsimp only
    rw [if_neg (by omega)]
    exact congrArg (fun l => some ({ st with bfd := l }, false)) (hupd _)
  · intro hbad
    unfold bfd_mintx_handler
    rw [hlast]
    rcases hbad with hp | ⟨v, hp, hv⟩
    · rw [hp]
    · rw [hp]
      dsimp only
      rw [if_pos (by omega)]
  · intro v hp h1 h2
    unfold bfd_idletx_handler
    rw [hlast, hp]
    dsimp only
    rw [if_neg (by omega)]
    exact congrArg (fun l => some ({ st with bfd := l }, false)) (hupd _)
  · intro hbad
    unfold bfd_idletx_handler
    rw [hlast]
    rcases hbad with hp | ⟨v, hp, hv⟩
    · rw [hp]
    · rw [hp]
      dsimp only
      rw [if_pos (by omega)]

/-- A state whose only instance is freshly allocated as y. -/
def stC9 : ParseState :=
  { bfd := [alloc_bfd "y"], vrrp_track_bfds := [], track_bfds := [],
    specified_event_processes := 0 }

theorem C9_interval_handlers_witness :
    parseDecNat "2000" = some 2000
    ∧ BFD_MINRX_MIN ≤ 2000 ∧ (2000 : Nat) ≤ BFD_MINRX_MAX
    ∧ BFD_MINRX_MAX_SENSIBLE < 2000
    ∧ bfd_minrx_handler stC9 "2000" =
        some ({ stC9 with
                bfd := [] ++ [{ alloc_bfd "y" with local_min_rx_intv := 2000 * 1000 }] },
              false) :=
  ⟨by decide, by decide, by decide, by decide,
   (C9_interval_handlers stC9 [] (alloc_bfd "y") "2000" rfl).1
     2000 (by decide) (by decide) (by decide)⟩

/-! ## Claim C5 -/

/-- Claim C5: inside a monitor-role block, a neighbor_ip line whose
address fails to parse, or whose parsed address equals a recorded
neighbor address, is block-fatal: the partially built Instance (the
list tail) is removed and the remaining lines of the block are not
processed (the skip flag is reported, so runBlock never reaches the
end-of-block validator).  A source_ip line whose address fails to
parse, by contrast, changes nothing and processing continues with the
remaining lines. -/
theorem C5_nbr_fatal_src_nonfatal (st : ParseState) (tok : String)
    (rest : List (String × String)) (L : List bfd_t) (b : bfd_t)
    (h : st.bfd = L ++ [b]) :
    ((inet_stosockaddr tok = none
      ∨ ∃ a, inet_stosockaddr tok = some a ∧ find_bfd_by_addr st a = true) →
      runLines bfdTbl (("neighbor_ip", tok) :: rest) st =
        some ({ st with bfd := L }, true))
    ∧ (inet_stosockaddr tok = none →
      runLines bfdTbl (("source_ip", tok) :: rest) st =
        runLines bfdTbl rest st) := by
  have hlast : st.bfd.getLast? = some b := getLast?_of_concat h
  have hdrop : st.bfd.dropLast = L := by rw [h]; exact List.dropLast_concat
  have hlook1 : List.lookup "neighbor_ip" bfdTbl.children
      = some HandlerTag.hNbrip := by decide
  have hlook2 : List.lookup "source_ip" bfdTbl.children
      = some HandlerTag.hSrcip := by decide
  constructor
  · intro hbad
    simp only [runLines, hlook1]
    show (match bfd_nbrip_handler st tok with
          | none => none
          | some (st1, true) => some (st1, true)
          | some (st1, false) => runLines bfdTbl rest st1)
        = some ({ st with bfd := L }, true)
    unfold bfd_nbrip_handler
    rw [hlast]
    rcases hbad with hp | ⟨a, hp, hfind⟩
    · rw [hp, hdrop]
    · rw [hp]
      dsimp only
      rw [if_pos hfind, hdrop]
  · intro hp
    simp only [runLines, hlook2]
    show (match bfd_srcip_handler st tok with
          | none => none
          | some (st1, true) => some (st1, true)
          | some (st1, false) => runLines bfdTbl rest st1)
        = runLines bfdTbl rest st
    unfold bfd_srcip_handler
    rw [hlast, hp]

/-- A state with a committed instance a (neighbor v4:1) and a current
instance bb still being built. -/
def stC5 : ParseState :=
  { bfd := [{ alloc_bfd "a" with nbr_addr := some ⟨Family.v4, 1⟩ },
            alloc_bfd "bb"],
    vrrp_track_bfds := [], track_bfds := [], specified_event_processes := 0 }

theorem C5_nbr_fatal_src_nonfatal_witness :
    find_bfd_by_addr stC5 ⟨Family.v4, 1⟩ = true
    ∧ runLines bfdTbl [("neighbor_ip", "v4:1")] stC5 =
        some ({ stC5 with
                bfd := [{ alloc_bfd "a" with nbr_addr := some ⟨Family.v4, 1⟩ }] },
              true) :=
  ⟨by decide,
   (C5_nbr_fatal_src_nonfatal stC5 "v4:1" []
      [{ alloc_bfd "a" with nbr_addr := some ⟨Family.v4, 1⟩ }]
      (alloc_bfd "bb") rfl).1
     (Or.inr ⟨⟨Family.v4, 1⟩, by decide, by decide⟩)⟩

/-! ## Claim C2 -/

/-- The state left by the redundancy role's parse of one block that
used only the checker selector: the provisional reference was
discarded again at the block's close, and the accumulator holds the
DAEMON_CHECKERS bit. -/
def stC2 : ParseState :=
  { bfd := [], vrrp_track_bfds := [], track_bfds := [],
    specified_event_processes := 4 }

/-- Claim C2 counterexample: in the redundancy role's parse the
accumulator is not reset when a new block opens.  After a load whose
single block used the checker selector, opening a fresh block b leaves
the accumulator nonzero (the opening handler never clears it), so the
value read at b's close does not reflect only selectors of b's own
block. -/
theorem C2_counterexample :
    runLoad ProgType.PROG_TYPE_VRRP [⟨"a", [("checker", "")]⟩] initState
      = some stC2
    ∧ (bfd_vrrp_handler stC2 "b").1.specified_event_processes = 4 := by decide

/-- Claim C2 (amended): only the monitor role's opening handler resets
the accumulator to zero (on every accepted opening); the redundancy
and checker roles' opening handlers leave it untouched, so in those
roles' parses the value at a block's close reflects every selector
keyword seen since the start of the load (and even earlier), not only
those of the block itself. -/
theorem C2_accumulator_reset (st : ParseState) (name : String)
    (h : check_new_bfd st name = true) :
    (bfd_handler st name).1.specified_event_processes = 0
    ∧ (bfd_vrrp_handler st name).1.specified_event_processes
        = st.specified_event_processes
    ∧ (bfd_checker_handler st name).1.specified_event_processes
        = st.specified_event_processes := by
  refine ⟨?_, ?_, ?_⟩
  · unfold bfd_handler
    rw [if_pos h]
  · unfold bfd_vrrp_handler
    split <;> rfl
  · unfold bfd_checker_handler
    split <;> rfl

theorem C2_accumulator_reset_witness :
    check_new_bfd stC2 "c" = true
    ∧ ((bfd_handler stC2 "c").1.specified_event_processes = 0
      ∧ (bfd_vrrp_handler stC2 "c").1.specified_event_processes
          = stC2.specified_event_processes
      ∧ (bfd_checker_handler stC2 "c").1.specified_event_processes
          = stC2.specified_event_processes) :=
  ⟨by decide, C2_accumulator_reset stC2 "c" (by decide)⟩

/-! ## Claim C10 -/

/-- Claim C10: in the checker role's keyword table the weight child
keyword is wired to the redundancy role's live weight handler (while
the monitor-role instance child keywords are wired to the no-op), so a
weight line inside a bfd_instance block parsed by the checker role
mutates the weight of the most-recently-added element of the
redundancy role's tracked-instance list. -/
theorem C10_checker_weight_wiring :
    List.lookup "weight" checkerTbl.children = some HandlerTag.hVrrpWeight
    ∧ List.lookup "neighbor_ip" checkerTbl.children = some HandlerTag.hIgnore
    ∧ ∀ (st : ParseState) (Lv : List vrrp_tracked_bfd_t)
        (t : vrrp_tracked_bfd_t) (tok : String) (v : Int),
        st.vrrp_track_bfds = Lv ++ [t] → parseDecInt tok = some v →
        -253 ≤ v → v ≤ 253 →
        runLines checkerTbl [("weight", tok)] st =
          some ({ st with vrrp_track_bfds := Lv ++ [{ t with weight := v }] },
                false) := by
  refine ⟨by decide, by decide, ?_⟩
  intro st Lv t tok v h hp h1 h2
  have hlook : List.lookup "weight" checkerTbl.children
      = some HandlerTag.hVrrpWeight := by decide
  have hlast : st.vrrp_track_bfds.getLast? = some t := getLast?_of_concat h
  have hupd : updateTail (fun x => { x with weight := v }) st.vrrp_track_bfds
      = Lv ++ [{ t with weight := v }] := by
    rw [h]; exact updateTail_concat _ Lv t
  simp only [runLines, hlook]
  show (match bfd_vrrp_weight_handler st tok with
        | none => none
        | some (st1, true) => some (st1, true)
        | some (st1, false) => runLines checkerTbl [] st1)
      = some ({ st with vrrp_track_bfds := Lv ++ [{ t with weight := v }] },
              false)
  unfold bfd_vrrp_weight_handler
  rw [hlast, hp]
  dsimp only
  rw [if_neg (by omega), hupd]
  rfl

/-- A state, as reached inside a checker-role process, where the
redundancy role's tracked list happens to be nonempty. -/
def stC10 : ParseState :=
  { bfd := [], vrrp_track_bfds := [{ bname := "z", weight := 0, bfd_up := false }],
    track_bfds := [{ bname := "z" }], specified_event_processes := 0 }

theorem C10_checker_weight_wiring_witness :
    parseDecInt "10" = some 10
    ∧ runLines checkerTbl [("weight", "10")] stC10 =
        some ({ stC10 with
                vrrp_track_bfds :=
                  [] ++ [{ ({ bname := "z", weight := 0, bfd_up := false }
                            : vrrp_tracked_bfd_t) with weight := 10 }] },
              false) :=
  ⟨by decide,
   C10_checker_weight_wiring.2.2 stC10 []
     { bname := "z", weight := 0, bfd_up := false } "10" 10 rfl (by decide)
     (by decide) (by decide)⟩

/-! ## Claim C1: table lemmas and line-processing lemmas -/

theorem vrrpTbl_children_eq :
    vrrpTbl.children =
      [("source_ip", HandlerTag.hIgnore), ("neighbor_ip", HandlerTag.hIgnore),
       ("min_rx", HandlerTag.hIgnore), ("min_tx", HandlerTag.hIgnore),
       ("idle_tx", HandlerTag.hIgnore), ("multiplier", HandlerTag.hIgnore),
       ("passive", HandlerTag.hIgnore), ("ttl", HandlerTag.hIgnore),
       ("hoplimit", HandlerTag.hIgnore), ("max_hops", HandlerTag.hIgnore),
       ("weight", HandlerTag.hVrrpWeight), ("vrrp", HandlerTag.hEventVrrp),
       ("checker", HandlerTag.hEventChecker)] := by decide

theorem checkerTbl_children_eq : checkerTbl.children = vrrpTbl.children := by
  decide

/-- Any hit in the non-monitor child table is the no-op on a
non-selector non-weight keyword, the weight handler on weight, or a
selector event handler on its selector. -/
theorem vrrp_children_cases (kw : String) (tag : HandlerTag)
    (h : List.lookup kw vrrpTbl.children = some tag) :
    (tag = HandlerTag.hIgnore ∧ ¬ kw = "vrrp" ∧ ¬ kw = "checker"
      ∧ ¬ kw = "weight")
    ∨ (tag = HandlerTag.hVrrpWeight ∧ kw = "weight")
    ∨ (tag = HandlerTag.hEventVrrp ∧ kw = "vrrp")
    ∨ (tag = HandlerTag.hEventChecker ∧ kw = "checker") := by
  have hm := lookup_mem_of_eq_some kw tag vrrpTbl.children h
  have hall : ∀ p ∈ vrrpTbl.children,
      (p.2 = HandlerTag.hIgnore ∧ ¬ p.1 = "vrrp" ∧ ¬ p.1 = "checker"
        ∧ ¬ p.1 = "weight")
      ∨ (p.2 = HandlerTag.hVrrpWeight ∧ p.1 = "weight")
      ∨ (p.2 = HandlerTag.hEventVrrp ∧ p.1 = "vrrp")
      ∨ (p.2 = HandlerTag.hEventChecker ∧ p.1 = "checker") := by decide
  exact hall (kw, tag) hm

/-- A keyword absent from the non-monitor child table is not a
selector keyword. -/
theorem vrrp_children_none (kw : String)
    (h : List.lookup kw vrrpTbl.children = none) :
    ¬ kw = "vrrp" ∧ ¬ kw = "checker" := by
  constructor <;> rintro rfl
  · exact absurd h (by decide)
  · exact absurd h (by decide)

/-- Processing body lines with the redundancy role's table keeps the
front of the tracked list and the name of its provisional tail, while
the accumulator gathers exactly the selector bits of the lines;
nothing skips and nothing aborts. -/
theorem runLines_vrrp_tail (lines : List (String × String)) :
    ∀ (st : ParseState) (Lv : List vrrp_tracked_bfd_t)
      (t : vrrp_tracked_bfd_t), st.vrrp_track_bfds = Lv ++ [t] →
      ∃ t', t'.bname = t.bname ∧
        runLines vrrpTbl lines st =
          some ({ bfd := st.bfd, vrrp_track_bfds := Lv ++ [t'],
                  track_bfds := st.track_bfds,
                  specified_event_processes :=
                    accumBits st.specified_event_processes lines }, false) := by
  induction lines with
  | nil =>
    intro st Lv t h
    refine ⟨t, rfl, ?_⟩
    simp only [runLines, accumBits]
    rw [← h]
  | cons l rest ih =>
    intro st Lv t h
    obtain ⟨kw, arg⟩ := l
    have hlast : st.vrrp_track_bfds.getLast? = some t := getLast?_of_concat h
    cases hlook : List.lookup kw vrrpTbl.children with
    | none =>
      have hks := vrrp_children_none kw hlook
      have hacc : accumBits st.specified_event_processes ((kw, arg) :: rest)
          = accumBits st.specified_event_processes rest := by
        simp only [accumBits, selStep]
        rw [if_neg hks.1, if_neg hks.2]
      obtain ⟨t', hb, hrun⟩ := ih st Lv t h
      refine ⟨t', hb, ?_⟩
      simp only [runLines, hlook]
      rw [hacc, hrun]
    | some tag =>
      rcases vrrp_children_cases kw tag hlook with
        ⟨rfl, hk1, hk2, hk3⟩ | ⟨rfl, rfl⟩ | ⟨rfl, rfl⟩ | ⟨rfl, rfl⟩
      · have hacc : accumBits st.specified_event_processes ((kw, arg) :: rest)
            = accumBits st.specified_event_processes rest := by
          simp only [accumBits, selStep]
          rw [if_neg hk1, if_neg hk2]
        obtain ⟨t', hb, hrun⟩ := ih st Lv t h
        refine ⟨t', hb, ?_⟩
        simp only [runLines, hlook, runHandler]
        rw [hacc, hrun]
      · have hacc : accumBits st.specified_event_processes
              (("weight", arg) :: rest)
            = accumBits st.specified_event_processes rest := by
          simp only [accumBits, selStep]
          rw [if_neg (by decide), if_neg (by decide)]
        cases hp : parseDecInt arg with
        | none =>
          obtain ⟨t', hb, hrun⟩ := ih st Lv t h
          refine ⟨t', hb, ?_⟩
          simp only [runLines, hlook, runHandler]
          unfold bfd_vrrp_weight_handler
          rw [hlast, hp]
          dsimp only
          rw [hacc, hrun]
        | some v =>
          by_cases hr : v < -253 ∨ v > 253
          · obtain ⟨t', hb, hrun⟩ := ih st Lv t h
            refine ⟨t', hb, ?_⟩
            simp only [runLines, hlook, runHandler]
            unfold bfd_vrrp_weight_handler
            rw [hlast, hp]
            dsimp only
            rw [if_pos hr]
            dsimp only
            rw [hacc, hrun]
          · have h2 : ({ st with
                vrrp_track_bfds :=
                  updateTail (fun x => { x with weight := v })
                    st.vrrp_track_bfds } : ParseState).vrrp_track_bfds
                = Lv ++ [{ t with weight := v }] := by
              simp only
              rw [h]
              exact updateTail_concat _ Lv t
            obtain ⟨t', hb, hrun⟩ := ih _ Lv { t with weight := v } h2
            refine ⟨t', hb, ?_⟩
            simp only [runLines, hlook, runHandler]
            unfold bfd_vrrp_weight_handler
            rw [hlast, hp]
            dsimp only
            rw [if_neg hr]
            dsimp only
            rw [hrun, hacc]
      · have hacc : accumBits st.specified_event_processes
              (("vrrp", arg) :: rest)
            = accumBits
                (__set_bit DAEMON_VRRP st.specified_event_processes) rest := by
          simp [accumBits, selStep]
        have h1 : (bfd_event_vrrp_handler st).vrrp_track_bfds = Lv ++ [t] := h
        obtain ⟨t', hb, hrun⟩ := ih (bfd_event_vrrp_handler st) Lv t h1
        refine ⟨t', hb, ?_⟩
        simp only [runLines, hlook, runHandler]
        rw [hrun, hacc]
        rfl
      · have hacc : accumBits st.specified_event_processes
              (("checker", arg) :: rest)
            = accumBits
                (__set_bit DAEMON_CHECKERS st.specified_event_processes)
                rest := by
          simp [accumBits, selStep]
        have h1 : (bfd_event_checker_handler st).vrrp_track_bfds
            = Lv ++ [t] := h
        obtain ⟨t', hb, hrun⟩ := ih (bfd_event_checker_handler st) Lv t h1
        refine ⟨t', hb, ?_⟩
        simp only [runLines, hlook, runHandler]
        rw [hrun, hacc]
        rfl

/-- Processing body lines that contain no weight line with the checker
role's table changes no list at all; the accumulator gathers exactly
the selector bits of the lines; nothing skips and nothing aborts. -/
theorem runLines_checker_noweight (lines : List (String × String)) :
    ∀ st : ParseState, (∀ l ∈ lines, ¬ l.1 = "weight") →
      runLines checkerTbl lines st =
        some ({ bfd := st.bfd, vrrp_track_bfds := st.vrrp_track_bfds,
                track_bfds := st.track_bfds,
                specified_event_processes :=
                  accumBits st.specified_event_processes lines }, false) := by
  induction lines with
  | nil =>
    intro st _
    simp only [runLines, accumBits]
  | cons l rest ih =>
    intro st hw
    obtain ⟨kw, arg⟩ := l
    have hwrest : ∀ l ∈ rest, ¬ l.1 = "weight" := by
      intro x hx
      exact hw x (List.mem_cons_of_mem _ hx)
    have hwkw : ¬ kw = "weight" := hw (kw, arg) (List.mem_cons_self _ _)
    cases hlook : List.lookup kw checkerTbl.children with
    | none =>
      rw [checkerTbl_children_eq] at hlook
      have hks := vrrp_children_none kw hlook
      have hacc : accumBits st.specified_event_processes ((kw, arg) :: rest)
          = accumBits st.specified_event_processes rest := by
        simp only [accumBits, selStep]
        rw [if_neg hks.1, if_neg hks.2]
      simp only [runLines, checkerTbl_children_eq, hlook]
      rw [hacc, ih st hwrest]
    | some tag =>
      have hlook2 := hlook
      rw [checkerTbl_children_eq] at hlook2
      rcases vrrp_children_cases kw tag hlook2 with
        ⟨rfl, hk1, hk2, hk3⟩ | ⟨rfl, rfl⟩ | ⟨rfl, rfl⟩ | ⟨rfl, rfl⟩
      · have hacc : accumBits st.specified_event_processes ((kw, arg) :: rest)
            = accumBits st.specified_event_processes rest := by
          simp only [accumBits, selStep]
          rw [if_neg hk1, if_neg hk2]
        simp only [runLines, hlook, runHandler]
        rw [hacc, ih st hwrest]
      · exact absurd rfl hwkw
      · have hacc : accumBits st.specified_event_processes
              (("vrrp", arg) :: rest)
            = accumBits
                (__set_bit DAEMON_VRRP st.specified_event_processes) rest := by
          simp [accumBits, selStep]
        simp only [runLines, hlook, runHandler]
        rw [hacc, ih (bfd_event_vrrp_handler st) hwrest]
        rfl
      · have hacc : accumBits st.specified_event_processes
              (("checker", arg) :: rest)
            = accumBits
                (__set_bit DAEMON_CHECKERS st.specified_event_processes)
                rest := by
          simp [accumBits, selStep]
        simp only [runLines, hlook, runHandler]
        rw [hacc, ih (bfd_event_checker_handler st) hwrest]
        rfl

/-- Claim C1 (amended): at the close of a redundancy-role (resp.
checker-role) block that created a provisional reference, the
reference is discarded if and only if the accumulator at the block's
close is nonzero and lacks that role's bit — and because these roles
never reset the accumulator, its value at the close is the bits of
every selector keyword seen so far in the load (including earlier
blocks and any value carried into the load), not only the selectors of
this block, and selectors of later blocks play no part.  (Body lines
here avoid the weight keyword, which in these roles touches the
redundancy list and would abort on an empty one; see C10.) -/
theorem C1_tracked_ref_discard (st : ParseState) (b : Block)
    (hv : st.vrrp_track_bfds.any (fun t => t.bname = b.name) = false)
    (hc : st.track_bfds.any (fun t => t.bname = b.name) = false)
    (hw : ∀ l ∈ b.lines, ¬ l.1 = "weight") :
    (∃ stv, runBlock vrrpTbl st b = some stv
      ∧ stv.specified_event_processes
          = accumBits st.specified_event_processes b.lines
      ∧ ((accumBits st.specified_event_processes b.lines ≠ 0
          ∧ __test_bit DAEMON_VRRP
              (accumBits st.specified_event_processes b.lines) = false) →
          stv.vrrp_track_bfds = st.vrrp_track_bfds)
      ∧ (¬ (accumBits st.specified_event_processes b.lines ≠ 0
            ∧ __test_bit DAEMON_VRRP
                (accumBits st.specified_event_processes b.lines) = false) →
          ∃ t', t'.bname = b.name
            ∧ stv.vrrp_track_bfds = st.vrrp_track_bfds ++ [t']))
    ∧ (∃ stc, runBlock checkerTbl st b = some stc
      ∧ stc.specified_event_processes
          = accumBits st.specified_event_processes b.lines
      ∧ ((accumBits st.specified_event_processes b.lines ≠ 0
          ∧ __test_bit DAEMON_CHECKERS
              (accumBits st.specified_event_processes b.lines) = false) →
          stc.track_bfds = st.track_bfds)
      ∧ (¬ (accumBits st.specified_event_processes b.lines ≠ 0
            ∧ __test_bit DAEMON_CHECKERS
                (accumBits st.specified_event_processes b.lines) = false) →
          stc.track_bfds = st.track_bfds ++ [{ bname := b.name }])) := by
  constructor
  · obtain ⟨t', hb', hrun⟩ :=
      runLines_vrrp_tail b.lines
        { st with vrrp_track_bfds := st.vrrp_track_bfds
            ++ [{ bname := b.name, weight := 0, bfd_up := false }] }
        st.vrrp_track_bfds
        { bname := b.name, weight := 0, bfd_up := false } rfl
    by_cases hcond : accumBits st.specified_event_processes b.lines ≠ 0
        ∧ __test_bit DAEMON_VRRP
            (accumBits st.specified_event_processes b.lines) = false
    · refine ⟨{ st with specified_event_processes :=
                  accumBits st.specified_event_processes b.lines },
        ?_, rfl, fun _ => rfl, fun hk => absurd hcond hk⟩
      unfold runBlock
      rw [show vrrpTbl.root = RootTag.rVrrp from rfl]
      simp only [runRoot]
      unfold bfd_vrrp_handler
      rw [if_neg (by simp [hv])]
      dsimp only
      rw [hrun]
      dsimp only
      rw [show vrrpTbl.sublevel_end = EndTag.eVrrp from rfl]
      simp only [runEnd]
      unfold bfd_vrrp_end_handler
      rw [if_pos ⟨hcond.1, by simp [hcond.2]⟩]
      dsimp only
      rw [List.getLast?_concat]
      dsimp only
      rw [List.dropLast_concat]
    · refine ⟨{ st with
          vrrp_track_bfds := st.vrrp_track_bfds ++ [t'],
          specified_event_processes :=
            accumBits st.specified_event_processes b.lines },
        ?_, rfl, fun hd => absurd hd hcond, fun _ => ⟨t', hb', rfl⟩⟩
      unfold runBlock
      rw [show vrrpTbl.root = RootTag.rVrrp from rfl]
      simp only [runRoot]
      unfold bfd_vrrp_handler
      rw [if_neg (by simp [hv])]
      dsimp only
      rw [hrun]
      dsimp only
      rw [show vrrpTbl.sublevel_end = EndTag.eVrrp from rfl]
      simp only [runEnd]
      unfold bfd_vrrp_end_handler
      rw [if_neg (by
        intro hx
        exact hcond ⟨hx.1, by simpa using hx.2⟩)]
  · have hrun :=
      runLines_checker_noweight b.lines
        { st with track_bfds := st.track_bfds ++ [{ bname := b.name }] } hw
    by_cases hcond : accumBits st.specified_event_processes b.lines ≠ 0
        ∧ __test_bit DAEMON_CHECKERS
            (accumBits st.specified_event_processes b.lines) = false
    · refine ⟨{ st with specified_event_processes :=
                  accumBits st.specified_event_processes b.lines },
        ?_, rfl, fun _ => rfl, fun hk => absurd hcond hk⟩
      unfold runBlock
      rw [show checkerTbl.root = RootTag.rChecker from rfl]
      simp only [runRoot]
      unfold bfd_checker_handler
      rw [if_neg (by simp [hc])]
      dsimp only
      rw [hrun]
      dsimp only
      rw [show checkerTbl.sublevel_end = EndTag.eChecker from rfl]
      simp only [runEnd]
      unfold bfd_checker_end_handler
      rw [if_pos ⟨hcond.1, by simp [hcond.2]⟩]
      dsimp only
      rw [List.getLast?_concat]
      dsimp only
      rw [List.dropLast_concat]
    · refine ⟨{ st with
          track_bfds := st.track_bfds ++ [{ bname := b.name }],
          specified_event_processes :=
            accumBits st.specified_event_processes b.lines },
        ?_, rfl, fun hd => absurd hd hcond, fun _ => rfl⟩
      unfold runBlock
      rw [show checkerTbl.root = RootTag.rChecker from rfl]
      simp only [runRoot]
      unfold bfd_checker_handler
      rw [if_neg (by simp [hc])]
      dsimp only
      rw [hrun]
      dsimp only
      rw [show checkerTbl.sublevel_end = EndTag.eChecker from rfl]
      simp only [runEnd]
      unfold bfd_checker_end_handler
      rw [if_neg (by
        intro hx
        exact hcond ⟨hx.1, by simpa using hx.2⟩)]

/-- Claim C1 counterexample: redundancy role, load of two blocks
a (with a vrrp line) then b (empty body).  A selector keyword is used
somewhere in the load and b's own block never uses vrrp, so the claim
requires b's reference to be discarded at b's close; the code keeps it
(the accumulator still holds DAEMON_VRRP from block a, so the end
handler's test passes). -/
theorem C1_counterexample :
    loadUsesSelector [⟨"a", [("vrrp", "")]⟩, ⟨"b", []⟩] = true
    ∧ blockUsesKw "vrrp" ⟨"b", []⟩ = false
    ∧ blockUsesKw "checker" ⟨"b", []⟩ = false
    ∧ runLoad ProgType.PROG_TYPE_VRRP [⟨"a", [("vrrp", "")]⟩, ⟨"b", []⟩]
        initState =
      some { bfd := [], track_bfds := [],
             vrrp_track_bfds :=
               [{ bname := "a", weight := 0, bfd_up := false },
                { bname := "b", weight := 0, bfd_up := false }],
             specified_event_processes := 2 } := by decide

theorem C1_tracked_ref_discard_witness :
    ((initState.vrrp_track_bfds.any (fun t => t.bname = "x") = false)
      ∧ (initState.track_bfds.any (fun t => t.bname = "x") = false))
    ∧ (∃ stv, runBlock vrrpTbl initState ⟨"x", [("checker", "")]⟩ = some stv
      ∧ stv.specified_event_processes
          = accumBits initState.specified_event_processes [("checker", "")]
      ∧ ((accumBits initState.specified_event_processes [("checker", "")] ≠ 0
          ∧ __test_bit DAEMON_VRRP
              (accumBits initState.specified_event_processes
                [("checker", "")]) = false) →
          stv.vrrp_track_bfds = initState.vrrp_track_bfds)
      ∧ (¬ (accumBits initState.specified_event_processes [("checker", "")] ≠ 0
            ∧ __test_bit DAEMON_VRRP
                (accumBits initState.specified_event_processes
                  [("checker", "")]) = false) →
          ∃ t', t'.bname = "x"
            ∧ stv.vrrp_track_bfds = initState.vrrp_track_bfds ++ [t'])) :=
  ⟨⟨by decide, by decide⟩,
   (C1_tracked_ref_discard initState ⟨"x", [("checker", "")]⟩
      (by decide) (by decide) (by decide)).1⟩

/-! ## Claim C3 -/

/-- Structural equality of the per-role data lists (everything a load
produces except the static accumulator). -/
def ListsEq (a b : ParseState) : Prop :=
  a.bfd = b.bfd ∧ a.vrrp_track_bfds = b.vrrp_track_bfds
    ∧ a.track_bfds = b.track_bfds

/-- ListsEq lifted to the scanner's optional results. -/
def OptListsEq : Option ParseState → Option ParseState → Prop
  | none, none => True
  | some a, some b => ListsEq a b
  | _, _ => False

/-- The monitor role's whole-load processing depends on the incoming
accumulator only through the accumulator of the result: two starting
states with equal lists produce results with equal lists. -/
theorem runConfig_bfd_lists (cfg : List Block) :
    ∀ st1 st2 : ParseState, ListsEq st1 st2 →
      OptListsEq (runConfig bfdTbl cfg st1) (runConfig bfdTbl cfg st2) := by
  induction cfg with
  | nil => intro st1 st2 h; exact h
  | cons b rest ih =>
    intro st1 st2 h
    obtain ⟨h1, h2, h3⟩ := h
    have hcc : check_new_bfd st2 b.name = check_new_bfd st1 b.name := by
      unfold check_new_bfd find_bfd_by_name
      rw [h1]
    by_cases hcv : check_new_bfd st1 b.name = true
    · have hst : ({ st1 with
            bfd := st1.bfd ++ [alloc_bfd b.name],
            specified_event_processes := 0 } : ParseState)
          = { st2 with
              bfd := st2.bfd ++ [alloc_bfd b.name],
              specified_event_processes := 0 } := by
        obtain ⟨a1, a2, a3, a4⟩ := st1
        obtain ⟨c1, c2, c3, c4⟩ := st2
        simp only at h1 h2 h3
        rw [h1, h2, h3]
      have hbeq : runBlock bfdTbl st1 b = runBlock bfdTbl st2 b := by
        unfold runBlock
        rw [show bfdTbl.root = RootTag.rBfd from rfl]
        simp only [runRoot]
        unfold bfd_handler
        rw [hcc, if_pos hcv, if_pos hcv, hst]
      simp only [runConfig]
      rw [hbeq]
      cases hres : runBlock bfdTbl st2 b with
      | none => exact trivial
      | some r => exact ih r r ⟨rfl, rfl, rfl⟩
    · have hr1 : runBlock bfdTbl st1 b = some st1 :=
        runBlock_bfd_reject st1 b (by
          cases hx : check_new_bfd st1 b.name
          · rfl
          · exact absurd hx hcv)
      have hr2 : runBlock bfdTbl st2 b = some st2 :=
        runBlock_bfd_reject st2 b (by
          rw [hcc]
          cases hx : check_new_bfd st1 b.name
          · rfl
          · exact absurd hx hcv)
      simp only [runConfig]
      rw [hr1, hr2]
      exact ih st1 st2 ⟨h1, h2, h3⟩

/-- The two-block configuration used in the C3 counterexample. -/
def cfgC3 : List Block := [⟨"a", []⟩, ⟨"b", [("checker", "")]⟩]

/-- The redundancy role's result of the first load of cfgC3. -/
def stC3a : ParseState :=
  { bfd := [], vrrp_track_bfds := [{ bname := "a", weight := 0, bfd_up := false }],
    track_bfds := [], specified_event_processes := 4 }

/-- The redundancy role's result of the second load of cfgC3. -/
def stC3b : ParseState :=
  { bfd := [], vrrp_track_bfds := [], track_bfds := [],
    specified_event_processes := 4 }

/-- Claim C3 counterexample: the redundancy role parses cfgC3 twice;
the first load keeps the reference of block a, but the second load —
which starts with the accumulator value the first load left behind —
discards it, so the two loads' tracked lists differ. -/
theorem C3_counterexample :
    runLoad ProgType.PROG_TYPE_VRRP cfgC3 initState = some stC3a
    ∧ runLoad ProgType.PROG_TYPE_VRRP cfgC3 (reloadState stC3a) = some stC3b
    ∧ stC3a.vrrp_track_bfds ≠ stC3b.vrrp_track_bfds := by decide

/-- Claim C3 (amended): for the monitor role the round-trip property
holds — the instance and tracked-reference lists a load produces do
not depend on the accumulator value carried in from earlier loads, so
re-parsing the same text yields structurally identical lists.  For the
redundancy and checker roles it fails (see the counterexample): the
accumulator is never reset in those roles and leaks across loads. -/
theorem C3_monitor_reload_deterministic (cfg : List Block) (s : Nat) :
    OptListsEq
      (runLoad ProgType.PROG_TYPE_BFD cfg
        { initState with specified_event_processes := s })
      (runLoad ProgType.PROG_TYPE_BFD cfg initState) :=
  runConfig_bfd_lists cfg _ _ ⟨rfl, rfl, rfl⟩
